import Mathlib

/-!
# Namespace store: admission-time resource-quota validation

A shallow embedding of `pkg/api/store/namespace/store.go`.

* Go values of type `interface{}` that arrive in request data are modelled by
  `Value` (the JSON universe); `map[string]interface{}` is `Data`, an
  association list read by first match.
* Calls into other packages (project lookup, namespace listing, object
  conversion, the fit checker, the wrapped store) are fields of `Env`; each
  function of the store returns, next to its Go result, the list of calls it
  made to those collaborators, in order.
* The three `ResourceQuotaLimit` structs are read through the specification's
  data model: a `LimitSet`, a mapping from resource name to `Quantity`.
-/

set_option linter.unusedVariables false

namespace NamespaceStore

/-! ## Dynamic values and request data -/

/-- A Go `interface{}` value as decoded from a request body. -/
inductive Value where
  | null
  | bool (b : Bool)
  | num (q : ℚ)
  | str (s : String)
  | list (xs : List Value)
  | map (kvs : List (String × Value))

/-- Go's `x == v` for a `string` operand `x` and an `interface{}` operand `v`:
true exactly when the dynamic type of `v` is `string` and the values agree. -/
def Value.eqString : Value → String → Bool
  | .str t, s => decide (t = s)
  | _, _ => false

/-- Go's `v == nil` for an `interface{}` operand. -/
def Value.isNil : Value → Bool
  | .null => true
  | _ => false

/-- A `map[string]interface{}`. -/
abbrev Data := List (String × Value)

/-- The two-result map read `v, ok := data[key]`. -/
def Data.lookup : Data → String → Option Value
  | [], _ => none
  | (k, v) :: rest, key => if k = key then some v else Data.lookup rest key

/-- The one-result map read `data[key]`: the nil interface when the key is
absent (also when `data` is the nil map). -/
def Data.get (data : Data) (key : String) : Value :=
  (Data.lookup data key).getD Value.null

/-! ## Quantities and limit sets -/

/-- A normalized resource quantity. -/
abbrev Quantity := ℚ

/-- A mapping from resource name to quantity. -/
abbrev LimitSet := List (String × Quantity)

/-- The struct `mgmtclient.ResourceQuotaLimit`. -/
abbrev MgmtResourceQuotaLimit := LimitSet

/-- The struct `clusterclient.ResourceQuotaLimit`. -/
abbrev ClusterResourceQuotaLimit := LimitSet

/-- The struct `v3.ResourceQuotaLimit`. -/
abbrev ResourceQuotaLimit := LimitSet

/-! ## Errors -/

/-- The struct `httperror.ErrorCode`. -/
structure ErrorCode where
  code : String
  status : Nat
deriving DecidableEq, Repr

/-- The constant `httperror.MaxLimitExceeded`. -/
def MaxLimitExceeded : ErrorCode := ⟨"MaxLimitExceeded", 422⟩

/-- A Go `error` value: an API error with code, message and field name, or any
other error of a collaborator. -/
inductive Error where
  | api (code : ErrorCode) (message : String) (fieldName : String)
  | other (msg : String)
deriving DecidableEq, Repr

/-- The constructor `httperror.NewFieldAPIError(code, fieldName, message)`. -/
def NewFieldAPIError (code : ErrorCode) (fieldName : String) (message : String) : Error :=
  Error.api code message fieldName

/-! ## Projects and namespaces -/

/-- The struct `mgmtclient.NamespaceResourceQuota`; `limit` is a pointer. -/
structure NamespaceResourceQuota where
  limit : Option MgmtResourceQuotaLimit

/-- The struct `mgmtclient.ProjectResourceQuota`; `limit` is a pointer. -/
structure ProjectResourceQuota where
  limit : Option MgmtResourceQuotaLimit

/-- The fields of `mgmtclient.Project` that the store reads; both are pointers. -/
structure Project where
  resourceQuota : Option ProjectResourceQuota
  namespaceDefaultResourceQuota : Option NamespaceResourceQuota

/-- The struct `clusterclient.NamespaceResourceQuota`; `limit` is a pointer. -/
structure ClusterNamespaceResourceQuota where
  limit : Option ClusterResourceQuotaLimit

/-- The fields of `clusterclient.Namespace` that matter here. -/
structure Namespace where
  id : String
  projectID : String
  resourceQuota : Option ClusterNamespaceResourceQuota

/-! ## Collaborators -/

/-- A call made to a collaborator. -/
inductive Call where
  | byID (id : String)
  | list
  | isQuotaFit (nsLimit : ResourceQuotaLimit) (nsLimits : List ResourceQuotaLimit)
      (projectLimit : ResourceQuotaLimit)
  | storeCreate (data : Data)
  | storeUpdate (data : Data) (id : String)

/-- The packages the store calls into.

* `toString` is `convert.ToString`;
* `byID id` is `access.ByID(apiContext, &mgmtschema.Version, ProjectType, id, &project)`;
* `toObjQuota` is `convert.ToObj(quota, &nsQuota)`;
* `toObjLimit` and `toObjLimitCluster` are `convert.ToObj(from, &to)` inside
  `limitToLimit` and `limitToLimitCluster`: the value left in `to` and the error;
* `list` is `access.List(apiContext, &schema.Version, NamespaceType, ..., &namespaces)`;
* `isQuotaFit` is `resourcequota.IsQuotaFit`;
* `putValue` is `values.PutValue`, returning the map after the write;
* `storeCreate` and `storeUpdate` are the embedded `types.Store`. -/
structure Env where
  toString : Value → String
  byID : String → Except Error Project
  toObjQuota : Value → Except Error NamespaceResourceQuota
  toObjLimit : Option MgmtResourceQuotaLimit → ResourceQuotaLimit × Option Error
  toObjLimitCluster : Option ClusterResourceQuotaLimit → ResourceQuotaLimit × Option Error
  list : Except Error (List Namespace)
  isQuotaFit : ResourceQuotaLimit → List ResourceQuotaLimit → ResourceQuotaLimit →
    Bool × String × Option Error
  putValue : Data → Value → List String → Data
  storeCreate : Data → Option Data × Option Error
  storeUpdate : Data → String → Option Data × Option Error

/-! ## The store -/

/-- The constant `quotaField`. -/
def quotaField : String := "resourceQuota"

/-- The read transformer that `New` installs on the wrapped store. -/
def New.Transformer (data : Data) : Option Data × Option Error :=
  let anns : Data :=
    match Data.get data "annotations" with
    | .map m => m
    | _ => []
  if Value.eqString (Data.get anns "management.cattle.io/system-namespace") "true" then
    (none, none)
  else
    (some data, none)

/-- The function `limitToLimit`. -/
def limitToLimit (env : Env) (src : Option MgmtResourceQuotaLimit) :
    ResourceQuotaLimit × Option Error :=
  let r := env.toObjLimit src
  (r.1, r.2)

/-- The function `limitToLimitCluster`. -/
def limitToLimitCluster (env : Env) (src : Option ClusterResourceQuotaLimit) :
    ResourceQuotaLimit × Option Error :=
  let r := env.toObjLimitCluster src
  (r.1, r.2)

/-- The loop `for _, n := range namespaces` of `validateResourceQuota`;
`projectId` is `data["projectId"]` and `nsLimits` the slice built so far. -/
def collectLimits (env : Env) (projectId : Value) :
    List Namespace → List ResourceQuotaLimit → Except Error (List ResourceQuotaLimit)
  | [], nsLimits => .ok nsLimits
  | n :: rest, nsLimits =>
    if !(Value.eqString projectId n.projectID) then
      collectLimits env projectId rest nsLimits
    else
      match n.resourceQuota with
      | none => collectLimits env projectId rest nsLimits
      | some q =>
        match limitToLimitCluster env q.limit with
        | (_, some err) => .error err
        | (nsLimit, none) => collectLimits env projectId rest (nsLimits ++ [nsLimit])

/-- What a function of the store did: the calls it made and its `error`. -/
structure Outcome where
  calls : List Call
  err : Option Error

/-- The end of `validateResourceQuota`, from the three results of
`resourcequota.IsQuotaFit` to the returned `error`. -/
def verdict : Bool × String × Option Error → Option Error
  | (_, _, some err) => some err
  | (true, _, none) => none
  | (false, msg, none) =>
    some (NewFieldAPIError MaxLimitExceeded quotaField
      ("Resource quota exceeds the project: " ++ msg))

/-- The part of `validateResourceQuota` after `nsQuota` is set: the conversions
of the two limits, the namespace listing, the loop and the fit check.
`calls` are the calls made so far. -/
def checkQuota (env : Env) (data : Data) (calls : List Call)
    (projectQuota : ProjectResourceQuota) (nsQuota : NamespaceResourceQuota) : Outcome :=
  match limitToLimit env projectQuota.limit with
  | (_, some err) => ⟨calls, some err⟩
  | (projectQuotaLimit, none) =>
    match limitToLimit env nsQuota.limit with
    | (_, some err) => ⟨calls, some err⟩
    | (nsQuotaLimit, none) =>
      match env.list with
      | .error err => ⟨calls ++ [Call.list], some err⟩
      | .ok namespaces =>
        match collectLimits env (Data.get data "projectId") namespaces [] with
        | .error err => ⟨calls ++ [Call.list], some err⟩
        | .ok nsLimits =>
          ⟨calls ++ [Call.list, Call.isQuotaFit nsQuotaLimit nsLimits projectQuotaLimit],
            verdict (env.isQuotaFit nsQuotaLimit nsLimits projectQuotaLimit)⟩

/-- The method `Store.validateResourceQuota`. -/
def Store.validateResourceQuota (env : Env) (data : Data) (id : String) : Outcome :=
  let quota := Data.get data quotaField
  let projectId := env.toString (Data.get data "projectId")
  match env.byID projectId with
  | .error err => ⟨[Call.byID projectId], some err⟩
  | .ok project =>
    match project.resourceQuota with
    | none => ⟨[Call.byID projectId], none⟩
    | some projectQuota =>
      if Value.isNil quota then
        match project.namespaceDefaultResourceQuota with
        | none => ⟨[Call.byID projectId], none⟩
        | some dflt => checkQuota env data [Call.byID projectId] projectQuota dflt
      else
        match env.toObjQuota quota with
        | .error err => ⟨[Call.byID projectId], some err⟩
        | .ok nsQuota => checkQuota env data [Call.byID projectId] projectQuota nsQuota

/-- What `Create` or `Update` did: the calls made and the two Go results. -/
structure WriteOutcome where
  calls : List Call
  result : Option Data × Option Error

/-- The status annotation `Create` writes when the request has a `resourceQuota` key. -/
def statusWithQuota : String :=
  "\x7b\"conditions\": [\x7b\"type\": \"InitialRolesPopulated\", \"status\": \"Unknown\", \"message\": \"Populating initial roles\"\x7d,\x7b\"type\": \"ResourceQuotaValidated\", \"status\": \"Unknown\", \"message\": \"Validating resource quota\"\x7d]\x7d"

/-- The status annotation `Create` writes otherwise. -/
def statusWithoutQuota : String :=
  "\x7b\"conditions\": [\x7b\"type\": \"InitialRolesPopulated\", \"status\": \"Unknown\", \"message\": \"Populating initial roles\"\x7d]\x7d"

/-- The request data as `Create` leaves it after writing the status annotation. -/
def Store.annotate (env : Env) (data : Data) : Data :=
  if (Data.lookup data "resourceQuota").isSome then
    env.putValue data (Value.str statusWithQuota) ["annotations", "cattle.io/status"]
  else
    env.putValue data (Value.str statusWithoutQuota) ["annotations", "cattle.io/status"]

/-- The method `Store.Create`. -/
def Store.Create (env : Env) (data : Data) : WriteOutcome :=
  let data := Store.annotate env data
  let v := Store.validateResourceQuota env data ""
  match v.err with
  | some err => ⟨v.calls, (none, some err)⟩
  | none => ⟨v.calls ++ [Call.storeCreate data], env.storeCreate data⟩

/-- The method `Store.Update`. -/
def Store.Update (env : Env) (data : Data) (id : String) : WriteOutcome :=
  let v := Store.validateResourceQuota env data id
  match v.err with
  | some err => ⟨v.calls, (none, some err)⟩
  | none => ⟨v.calls ++ [Call.storeUpdate data id], env.storeUpdate data id⟩

/-! ## The fit checker of the specification -/

/-- Modelled from the spec: `get(limitSet, key)` of the LimitSet component, the
stored quantity or zero when the key is absent. The package
`pkg/resourcequota` that holds the checker is not among the sources. -/
def LimitSet.get : LimitSet → String → Quantity
  | [], _ => 0
  | (k, q) :: rest, key => if k = key then q else LimitSet.get rest key

/-- Modelled from the spec: `keys(limitSet)` of the LimitSet component, the
declared resource names. -/
def LimitSet.keys (l : LimitSet) : List String :=
  l.map Prod.fst

/-- Modelled from the spec: `sum(limitSets)` of the LimitSet component; over the
union of the keys of all inputs, the value at a key is the arithmetic sum of
that key over all inputs, absent counting as zero. -/
def LimitSet.sum (ls : List LimitSet) : LimitSet :=
  ((ls.map LimitSet.keys).flatten.dedup).map
    (fun key => (key, (ls.map (fun l => LimitSet.get l key)).sum))

/-- Modelled from the spec: `committed = sum(siblings)[key] + candidate[key]` of
the QuotaFitChecker algorithm. -/
def committed (candidate : LimitSet) (siblings : List LimitSet) (key : String) : Quantity :=
  LimitSet.get (LimitSet.sum siblings) key + LimitSet.get candidate key

/-- Modelled from the spec: the keys of `cap` at which the check fails,
`committed > cap[key]`; every capped key is evaluated. -/
def exceeded (candidate : LimitSet) (siblings : List LimitSet) (cap : LimitSet) : List String :=
  (LimitSet.keys cap).filter
    (fun key => decide (committed candidate siblings key > LimitSet.get cap key))

/-- Modelled from the spec: the detail message of a failed check, naming every
exceeded key with its committed and cap values. -/
def detail (candidate : LimitSet) (siblings : List LimitSet) (cap : LimitSet) : String :=
  String.intercalate "; " ((exceeded candidate siblings cap).map (fun key =>
    key ++ ": committed " ++ toString (committed candidate siblings key) ++
      ", cap " ++ toString (LimitSet.get cap key)))

/-- Modelled from the spec: `fits(candidate, siblings, cap)` of the
QuotaFitChecker component; `ok` with no detail when every capped key is within
bounds, otherwise not `ok` with the detail message. -/
def fits (candidate : LimitSet) (siblings : List LimitSet) (cap : LimitSet) :
    Bool × Option String :=
  if (exceeded candidate siblings cap).isEmpty then (true, none)
  else (false, some (detail candidate siblings cap))

/-- Modelled from the spec: `resourcequota.IsQuotaFit` as the QuotaFitChecker of
the specification, which never fails with an internal error; the package
`pkg/resourcequota` is not among the sources. -/
def IsQuotaFit (nsLimit : ResourceQuotaLimit) (nsLimits : List ResourceQuotaLimit)
    (projectLimit : ResourceQuotaLimit) : Bool × String × Option Error :=
  match fits nsLimit nsLimits projectLimit with
  | (ok, msg) => (ok, msg.getD "", none)

/-! ## The sibling list in the words of the specification -/

/-- Whether a listed namespace counts against the request: its project id
equals the request's `projectId` value and it declares a resource quota. -/
def counts (projectId : Value) (n : Namespace) : Bool :=
  Value.eqString projectId n.projectID && n.resourceQuota.isSome

/-- One converted limit per listed namespace that counts, in listing order. -/
def siblingLimits (env : Env) (projectId : Value) (namespaces : List Namespace) :
    List ResourceQuotaLimit :=
  (namespaces.filter (counts projectId)).map
    (fun n => (limitToLimitCluster env (n.resourceQuota.bind (fun q => q.limit))).1)

/-- Whether a listed namespace belongs to the project fetched under the
identifier `projectId` and declares a resource quota. -/
def belongsTo (projectId : String) (n : Namespace) : Bool :=
  decide (n.projectID = projectId) && n.resourceQuota.isSome

/-- The candidate quota that `validateResourceQuota` resolves for a request in
a capped project: the project's namespace default when `data["resourceQuota"]`
is nil, otherwise the conversion of `data["resourceQuota"]`. -/
def Resolves (env : Env) (data : Data) (project : Project)
    (nsQuota : NamespaceResourceQuota) : Prop :=
  (Value.isNil (Data.get data quotaField) = true ∧
      project.namespaceDefaultResourceQuota = some nsQuota) ∨
    (Value.isNil (Data.get data quotaField) = false ∧
      env.toObjQuota (Data.get data quotaField) = .ok nsQuota)

/-! ## A concrete installation -/

/-- A sample `convert.ToString`: a string is itself, a number is printed, the
nil interface is the empty string. -/
def sampleToString : Value → String
  | .str s => s
  | .num q => toString q
  | _ => ""

/-- A project with cap `cpu: 4` and namespace default `memory: 512`. -/
def sampleProject : Project :=
  { resourceQuota := some ⟨some [("cpu", 4)]⟩
    namespaceDefaultResourceQuota := some ⟨some [("memory", 512)]⟩ }

/-- A project with cap `cpu: 4` and no namespace default. -/
def bareProject : Project :=
  { resourceQuota := some ⟨some [("cpu", 4)]⟩
    namespaceDefaultResourceQuota := none }

/-- A project without a cap. -/
def freeProject : Project :=
  { resourceQuota := none
    namespaceDefaultResourceQuota := some ⟨some [("memory", 512)]⟩ }

/-- A sample decoding of a limit object: its numeric entries. -/
def sampleLimitOf : Value → LimitSet
  | .map kvs => kvs.filterMap (fun kv =>
      match kv.2 with
      | .num q => some (kv.1, q)
      | _ => none)
  | _ => []

/-- A sample `convert.ToObj` into a namespace quota: an object is decoded
through its `limit` entry, anything else is an error. -/
def sampleToObjQuota : Value → Except Error NamespaceResourceQuota
  | .map kvs => .ok ⟨some (sampleLimitOf (Data.get kvs "limit"))⟩
  | _ => .error (Error.other "cannot convert")

/-- Four listed namespaces: two of project `p1` with quota `cpu: 1`, one of
project `p2`, one of project `p1` without a quota. -/
def sampleNamespaces : List Namespace :=
  [ ⟨"ns1", "p1", some ⟨some [("cpu", 1)]⟩⟩,
    ⟨"ns2", "p2", some ⟨some [("cpu", 3)]⟩⟩,
    ⟨"ns3", "p1", none⟩,
    ⟨"ns4", "p1", some ⟨some [("cpu", 1)]⟩⟩ ]

/-- A listing with the single namespace `ns1` of project `p1`, quota `cpu: 3`. -/
def ownNamespaces : List Namespace :=
  [ ⟨"ns1", "p1", some ⟨some [("cpu", 3)]⟩⟩ ]

/-- A listing with the single namespace `ns5` of project `5`, quota `cpu: 3`. -/
def strayNamespaces : List Namespace :=
  [ ⟨"ns5", "5", some ⟨some [("cpu", 3)]⟩⟩ ]

/-- A sample project lookup: `p1` and `5` are capped projects, `p3` a capped
project without namespace default, `p0` a project without cap. -/
def sampleByID (id : String) : Except Error Project :=
  if id = "p1" then .ok sampleProject
  else if id = "5" then .ok sampleProject
  else if id = "p3" then .ok bareProject
  else if id = "p0" then .ok freeProject
  else .error (Error.other "project not found")

/-- An installation over a given namespace listing, with the checker of the
specification and a wrapped store that echoes the data it is given. -/
def envWith (namespaces : Except Error (List Namespace)) : Env :=
  { toString := sampleToString
    byID := sampleByID
    toObjQuota := sampleToObjQuota
    toObjLimit := fun l => (l.getD [], none)
    toObjLimitCluster := fun l => (l.getD [], none)
    list := namespaces
    isQuotaFit := IsQuotaFit
    putValue := fun data _ _ => data
    storeCreate := fun data => (some data, none)
    storeUpdate := fun data _ => (some data, none) }

/-- The installation over `sampleNamespaces`. -/
def sampleEnv : Env := envWith (.ok sampleNamespaces)

/-- The sample installation with a checker that always answers `answer`. -/
def envAnswering (answer : Bool × String × Option Error) : Env :=
  { sampleEnv with isQuotaFit := fun _ _ _ => answer }

/-- A request for project `projectId` with quota `cpu: q`. -/
def request (projectId : Value) (q : ℚ) : Data :=
  [("projectId", projectId),
   ("resourceQuota", .map [("limit", .map [("cpu", .num q)])])]

/-! ## Lemmas on the sibling loop -/

theorem collectLimits_ok_eq (env : Env) (projectId : Value) :
    ∀ (namespaces : List Namespace) (acc r : List ResourceQuotaLimit),
      collectLimits env projectId namespaces acc = .ok r →
        r = acc ++ siblingLimits env projectId namespaces := by
  intro namespaces
  induction namespaces with
  | nil =>
    intro acc r h
    simp [collectLimits] at h
    simp [siblingLimits, h]
  | cons n rest ih =>
    intro acc r h
    unfold collectLimits at h
    by_cases hp : Value.eqString projectId n.projectID = true
    · simp only [hp, Bool.not_true, Bool.false_eq_true, if_false] at h
      cases hq : n.resourceQuota with
      | none =>
        simp only [hq] at h
        have := ih acc r h
        simpa [siblingLimits, counts, hp, hq, List.filter_cons] using this
      | some q =>
        simp only [hq] at h
        split at h
        · exact absurd h (by simp)
        · rename_i nsLimit hl
          have := ih _ r h
          simp [siblingLimits, counts, hp, hq, List.filter_cons, hl, this]
    · simp only [hp, Bool.not_false, if_true] at h
      have := ih acc r h
      simpa [siblingLimits, counts, hp, List.filter_cons] using this

theorem collectLimits_ok_of_converts (env : Env) (projectId : Value) :
    ∀ (namespaces : List Namespace) (acc : List ResourceQuotaLimit),
      (∀ n ∈ namespaces, counts projectId n = true →
        (limitToLimitCluster env (n.resourceQuota.bind (fun q => q.limit))).2 = none) →
      collectLimits env projectId namespaces acc =
        .ok (acc ++ siblingLimits env projectId namespaces) := by
  intro namespaces
  induction namespaces with
  | nil =>
    intro acc _
    simp [collectLimits, siblingLimits]
  | cons n rest ih =>
    intro acc hconv
    have hrest : ∀ m ∈ rest, counts projectId m = true →
        (limitToLimitCluster env (m.resourceQuota.bind (fun q => q.limit))).2 = none :=
      fun m hm => hconv m (List.mem_cons_of_mem _ hm)
    unfold collectLimits
    by_cases hp : Value.eqString projectId n.projectID = true
    · simp only [hp, Bool.not_true, Bool.false_eq_true, if_false]
      cases hq : n.resourceQuota with
      | none =>
        simp only []
        rw [ih acc hrest]
        simp [siblingLimits, counts, hp, hq, List.filter_cons]
      | some q =>
        have hn := hconv n (List.mem_cons_self _ _) (by simp [counts, hp, hq])
        simp only [hq, Option.some_bind] at hn
        simp only []
        split
        · rename_i err hl
          rw [hl] at hn
          simp at hn
        · rename_i nsLimit hl
          rw [ih _ hrest]
          simp [siblingLimits, counts, hp, hq, List.filter_cons, hl]
    · simp only [hp, Bool.not_false, if_true]
      rw [ih acc hrest]
      simp [siblingLimits, counts, hp, List.filter_cons]

/-! ## Lemmas on the validation -/

/-- The three ways `checkQuota` can end: a limit conversion fails before any
further call; the listing or a sibling conversion fails after the listing; or
the checker is called on the converted candidate, the sibling limits and the
converted cap, and its three results decide. -/
theorem checkQuota_cases (env : Env) (data : Data) (calls : List Call)
    (projectQuota : ProjectResourceQuota) (nsQuota : NamespaceResourceQuota) :
    (∃ err, checkQuota env data calls projectQuota nsQuota = ⟨calls, some err⟩ ∧
      ((limitToLimit env projectQuota.limit).2 = some err ∨
        (limitToLimit env nsQuota.limit).2 = some err)) ∨
    (∃ err, checkQuota env data calls projectQuota nsQuota = ⟨calls ++ [Call.list], some err⟩ ∧
      (env.list = .error err ∨
        ∃ namespaces, env.list = .ok namespaces ∧
          collectLimits env (Data.get data "projectId") namespaces [] = .error err)) ∨
    (∃ namespaces, env.list = .ok namespaces ∧
      (limitToLimit env projectQuota.limit).2 = none ∧
      (limitToLimit env nsQuota.limit).2 = none ∧
      collectLimits env (Data.get data "projectId") namespaces [] =
        .ok (siblingLimits env (Data.get data "projectId") namespaces) ∧
      checkQuota env data calls projectQuota nsQuota =
        ⟨calls ++ [Call.list,
            Call.isQuotaFit (limitToLimit env nsQuota.limit).1
              (siblingLimits env (Data.get data "projectId") namespaces)
              (limitToLimit env projectQuota.limit).1],
          verdict (env.isQuotaFit (limitToLimit env nsQuota.limit).1
            (siblingLimits env (Data.get data "projectId") namespaces)
            (limitToLimit env projectQuota.limit).1)⟩) := by
  unfold checkQuota
  split
  · rename_i err h1
    exact Or.inl ⟨err, rfl, Or.inl (by rw [h1])⟩
  · rename_i cap h1
    split
    · rename_i err h2
      exact Or.inl ⟨err, rfl, Or.inr (by rw [h2])⟩
    · rename_i cand h2
      split
      · rename_i err h3
        exact Or.inr (Or.inl ⟨err, rfl, Or.inl h3⟩)
      · rename_i namespaces h3
        split
        · rename_i err h4
          exact Or.inr (Or.inl ⟨err, rfl, Or.inr ⟨namespaces, h3, h4⟩⟩)
        · rename_i nsLimits h4
          have h5 := collectLimits_ok_eq env _ namespaces [] nsLimits h4
          simp only [List.nil_append] at h5
          subst h5
          refine Or.inr (Or.inr ⟨namespaces, h3, by rw [h1], by rw [h2], h4, ?_⟩)
          rw [h1, h2]

/-- The five ways `validateResourceQuota` can go before the limits are
converted. -/
theorem validate_cases (env : Env) (data : Data) (id : String) :
    (∃ err, env.byID (env.toString (Data.get data "projectId")) = .error err ∧
      Store.validateResourceQuota env data id =
        ⟨[Call.byID (env.toString (Data.get data "projectId"))], some err⟩) ∨
    (∃ project, env.byID (env.toString (Data.get data "projectId")) = .ok project ∧
      project.resourceQuota = none ∧
      Store.validateResourceQuota env data id =
        ⟨[Call.byID (env.toString (Data.get data "projectId"))], none⟩) ∨
    (∃ project projectQuota,
      env.byID (env.toString (Data.get data "projectId")) = .ok project ∧
      project.resourceQuota = some projectQuota ∧
      Value.isNil (Data.get data quotaField) = true ∧
      project.namespaceDefaultResourceQuota = none ∧
      Store.validateResourceQuota env data id =
        ⟨[Call.byID (env.toString (Data.get data "projectId"))], none⟩) ∨
    (∃ project projectQuota err,
      env.byID (env.toString (Data.get data "projectId")) = .ok project ∧
      project.resourceQuota = some projectQuota ∧
      Value.isNil (Data.get data quotaField) = false ∧
      env.toObjQuota (Data.get data quotaField) = .error err ∧
      Store.validateResourceQuota env data id =
        ⟨[Call.byID (env.toString (Data.get data "projectId"))], some err⟩) ∨
    (∃ project projectQuota nsQuota,
      env.byID (env.toString (Data.get data "projectId")) = .ok project ∧
      project.resourceQuota = some projectQuota ∧
      Resolves env data project nsQuota ∧
      Store.validateResourceQuota env data id =
        checkQuota env data [Call.byID (env.toString (Data.get data "projectId"))]
          projectQuota nsQuota) := by
  unfold Store.validateResourceQuota
  simp only []
  split
  · rename_i err h1
    exact Or.inl ⟨err, h1, rfl⟩
  · rename_i project h1
    split
    · rename_i h2
      exact Or.inr (Or.inl ⟨project, h1, h2, rfl⟩)
    · rename_i projectQuota h2
      split
      · rename_i h3
        split
        · rename_i h4
          exact Or.inr (Or.inr (Or.inl ⟨project, projectQuota, h1, h2, h3, h4, rfl⟩))
        · rename_i dflt h4
          exact Or.inr (Or.inr (Or.inr (Or.inr
            ⟨project, projectQuota, dflt, h1, h2, Or.inl ⟨h3, h4⟩, rfl⟩)))
      · rename_i h3
        have h3f : Value.isNil (Data.get data quotaField) = false := by
          simpa using h3
        split
        · rename_i err h4
          exact Or.inr (Or.inr (Or.inr (Or.inl
            ⟨project, projectQuota, err, h1, h2, h3f, h4, rfl⟩)))
        · rename_i nsQuota h4
          exact Or.inr (Or.inr (Or.inr (Or.inr
            ⟨project, projectQuota, nsQuota, h1, h2, Or.inr ⟨h3f, h4⟩, rfl⟩)))

/-! ## Lemmas on limit sets and the checker -/

theorem LimitSet.get_map_pair (f : String → Quantity) (key : String) :
    ∀ ks : List String,
      LimitSet.get (ks.map (fun k => (k, f k))) key = if key ∈ ks then f key else 0 := by
  intro ks
  induction ks with
  | nil => simp [LimitSet.get]
  | cons k rest ih =>
    simp only [List.map_cons, LimitSet.get, ih, List.mem_cons]
    by_cases hk : k = key
    · subst hk
      simp
    · have hk2 : ¬ key = k := fun h => hk h.symm
      simp [hk, hk2]

theorem LimitSet.get_of_not_mem_keys (key : String) :
    ∀ l : LimitSet, key ∉ LimitSet.keys l → LimitSet.get l key = 0 := by
  intro l
  induction l with
  | nil => intro _; simp [LimitSet.get]
  | cons kv rest ih =>
    intro h
    obtain ⟨k, q⟩ := kv
    simp only [LimitSet.keys, List.map_cons, List.mem_cons, not_or] at h
    have hk : ¬ k = key := fun e => h.1 e.symm
    simp only [LimitSet.get, hk, if_false]
    exact ih h.2

/-- The value of a sum of limit sets at a key is the sum of the values at that
key, absent counting as zero. -/
theorem LimitSet.get_sum (ls : List LimitSet) (key : String) :
    LimitSet.get (LimitSet.sum ls) key = (ls.map (fun l => LimitSet.get l key)).sum := by
  unfold LimitSet.sum
  rw [LimitSet.get_map_pair]
  split
  · rfl
  · rename_i h
    symm
    apply List.sum_eq_zero
    intro x hx
    obtain ⟨l, hl, rfl⟩ := List.mem_map.1 hx
    apply LimitSet.get_of_not_mem_keys
    intro hmem
    apply h
    rw [List.mem_dedup, List.mem_flatten]
    exact ⟨LimitSet.keys l, List.mem_map.2 ⟨l, hl, rfl⟩, hmem⟩

/-- The checker of the specification accepts exactly when every capped key is
within bounds, and it never reports an internal error. -/
theorem IsQuotaFit_spec (candidate : LimitSet) (siblings : List LimitSet) (cap : LimitSet) :
    (verdict (IsQuotaFit candidate siblings cap) = none ↔
      ∀ key ∈ LimitSet.keys cap,
        (siblings.map (fun l => LimitSet.get l key)).sum + LimitSet.get candidate key ≤
          LimitSet.get cap key) ∧
    (verdict (IsQuotaFit candidate siblings cap) = none ∨
      verdict (IsQuotaFit candidate siblings cap) =
        some (Error.api MaxLimitExceeded
          ("Resource quota exceeds the project: " ++ detail candidate siblings cap)
          "resourceQuota")) := by
  have hex : (exceeded candidate siblings cap = []) ↔
      ∀ key ∈ LimitSet.keys cap,
        (siblings.map (fun l => LimitSet.get l key)).sum + LimitSet.get candidate key ≤
          LimitSet.get cap key := by
    unfold exceeded committed
    rw [List.filter_eq_nil_iff]
    constructor
    · intro h key hk
      have := h key hk
      rw [LimitSet.get_sum] at this
      simpa using this
    · intro h key hk
      have := h key hk
      rw [LimitSet.get_sum]
      simpa using this
  by_cases he : exceeded candidate siblings cap = []
  · have hv : verdict (IsQuotaFit candidate siblings cap) = none := by
      simp [IsQuotaFit, fits, he, verdict]
    exact ⟨⟨fun _ => hex.1 he, fun _ => hv⟩, Or.inl hv⟩
  · have hv : verdict (IsQuotaFit candidate siblings cap) =
        some (Error.api MaxLimitExceeded
          ("Resource quota exceeds the project: " ++ detail candidate siblings cap)
          "resourceQuota") := by
      simp [IsQuotaFit, fits, he, verdict, NewFieldAPIError, quotaField]
    refine ⟨⟨fun h => ?_, fun h => absurd (hex.2 h) he⟩, Or.inr hv⟩
    rw [hv] at h
    exact absurd h (by simp)

/-- When the checker was called, the project was fetched and has a cap, the
candidate quota resolved, the listing and every conversion succeeded, and the
three arguments of the call and the result of the validation are determined. -/
theorem validate_of_fit_call (env : Env) (data : Data) (id : String)
    (c : ResourceQuotaLimit) (s : List ResourceQuotaLimit) (k : ResourceQuotaLimit)
    (hcall : Call.isQuotaFit c s k ∈ (Store.validateResourceQuota env data id).calls) :
    ∃ project projectQuota nsQuota namespaces,
      env.byID (env.toString (Data.get data "projectId")) = .ok project ∧
      project.resourceQuota = some projectQuota ∧
      Resolves env data project nsQuota ∧
      env.list = .ok namespaces ∧
      c = (limitToLimit env nsQuota.limit).1 ∧
      s = siblingLimits env (Data.get data "projectId") namespaces ∧
      k = (limitToLimit env projectQuota.limit).1 ∧
      Store.validateResourceQuota env data id =
        ⟨[Call.byID (env.toString (Data.get data "projectId")), Call.list,
            Call.isQuotaFit c s k],
          verdict (env.isQuotaFit c s k)⟩ := by
  rcases validate_cases env data id with
    ⟨e, _, h⟩ | ⟨p, _, _, h⟩ | ⟨p, pq, _, _, _, _, h⟩ | ⟨p, pq, e, _, _, _, _, h⟩ |
    ⟨p, pq, nsq, h1, h2, h3, h⟩
  · rw [h] at hcall; simp at hcall
  · rw [h] at hcall; simp at hcall
  · rw [h] at hcall; simp at hcall
  · rw [h] at hcall; simp at hcall
  · rcases checkQuota_cases env data [Call.byID (env.toString (Data.get data "projectId"))]
        pq nsq with ⟨e, hc, _⟩ | ⟨e, hc, _⟩ | ⟨nss, hl, _, _, _, hc⟩
    · rw [h, hc] at hcall; simp at hcall
    · rw [h, hc] at hcall; simp at hcall
    · rw [h, hc] at hcall
      simp only [List.cons_append, List.nil_append, List.mem_cons, List.mem_singleton,
        List.mem_nil_iff, or_false, reduceCtorEq, false_or, Call.isQuotaFit.injEq] at hcall
      obtain ⟨rfl, rfl, rfl⟩ := hcall
      exact ⟨p, pq, nsq, nss, h1, h2, h3, hl, rfl, rfl, rfl, by rw [h, hc]; rfl⟩

/-- When the project is fetched and has a cap, the candidate quota resolves,
and the listing and every conversion succeed, the checker is called once, after
the project fetch and the listing, and its three results decide. -/
theorem validate_reaches_check (env : Env) (data : Data) (id : String)
    (project : Project) (projectQuota : ProjectResourceQuota)
    (nsQuota : NamespaceResourceQuota) (namespaces : List Namespace)
    (hfetch : env.byID (env.toString (Data.get data "projectId")) = .ok project)
    (hcap : project.resourceQuota = some projectQuota)
    (hres : Resolves env data project nsQuota)
    (hcapConv : (limitToLimit env projectQuota.limit).2 = none)
    (hcandConv : (limitToLimit env nsQuota.limit).2 = none)
    (hlist : env.list = .ok namespaces)
    (hsibConv : ∀ n ∈ namespaces, counts (Data.get data "projectId") n = true →
      (limitToLimitCluster env (n.resourceQuota.bind (fun q => q.limit))).2 = none) :
    Store.validateResourceQuota env data id =
      ⟨[Call.byID (env.toString (Data.get data "projectId")), Call.list,
          Call.isQuotaFit (limitToLimit env nsQuota.limit).1
            (siblingLimits env (Data.get data "projectId") namespaces)
            (limitToLimit env projectQuota.limit).1],
        verdict (env.isQuotaFit (limitToLimit env nsQuota.limit).1
          (siblingLimits env (Data.get data "projectId") namespaces)
          (limitToLimit env projectQuota.limit).1)⟩ := by
  have hv : Store.validateResourceQuota env data id =
      checkQuota env data [Call.byID (env.toString (Data.get data "projectId"))]
        projectQuota nsQuota := by
    unfold Store.validateResourceQuota
    simp only [hfetch, hcap]
    rcases hres with ⟨hn, hd⟩ | ⟨hn, hq⟩
    · simp only [hn, if_true, hd]
    · simp only [hn, Bool.false_eq_true, if_false, hq]
  rw [hv]
  rcases checkQuota_cases env data [Call.byID (env.toString (Data.get data "projectId"))]
      projectQuota nsQuota with ⟨e, _, h | h⟩ | ⟨e, _, h | ⟨nss, hl, h⟩⟩ | ⟨nss, hl, _, _, _, hc⟩
  · rw [hcapConv] at h; exact absurd h (by simp)
  · rw [hcandConv] at h; exact absurd h (by simp)
  · rw [hlist] at h; exact absurd h (by simp)
  · rw [hlist] at hl
    cases hl
    have := collectLimits_ok_of_converts env (Data.get data "projectId") namespaces [] hsibConv
    rw [this] at h
    exact absurd h (by simp)
  · rw [hlist] at hl
    cases hl
    rw [hc]
    rfl

/-- The validation never calls the wrapped store. -/
theorem validate_no_store_call (env : Env) (data : Data) (id : String) :
    (∀ d, Call.storeCreate d ∉ (Store.validateResourceQuota env data id).calls) ∧
    (∀ d i, Call.storeUpdate d i ∉ (Store.validateResourceQuota env data id).calls) := by
  rcases validate_cases env data id with
    ⟨e, _, h⟩ | ⟨p, _, _, h⟩ | ⟨p, pq, _, _, _, _, h⟩ | ⟨p, pq, e, _, _, _, _, h⟩ |
    ⟨p, pq, nsq, h1, h2, h3, h⟩
  · rw [h]; simp
  · rw [h]; simp
  · rw [h]; simp
  · rw [h]; simp
  · rcases checkQuota_cases env data [Call.byID (env.toString (Data.get data "projectId"))]
        pq nsq with ⟨e, hc, _⟩ | ⟨e, hc, _⟩ | ⟨nss, hl, _, _, _, hc⟩
    · rw [h, hc]; simp
    · rw [h, hc]; simp
    · rw [h, hc]; simp

/-- What the validation decides with the checker of the specification: when
the project is fetched and has a cap, the candidate quota resolves, and the
listing and every conversion succeed, it returns no error if and only if, for
every resource key of the cap, the sum of that key over the limits of the
namespaces that the loop selects (project id equal to the raw
`data["projectId"]`, quota declared) plus the candidate's value for that key is
at most the cap's value, absent keys counting as zero. -/
theorem validate_accepted_iff_counted_within_cap (env : Env) (data : Data) (id : String)
    (project : Project) (projectQuota : ProjectResourceQuota)
    (nsQuota : NamespaceResourceQuota) (namespaces : List Namespace)
    (hchecker : env.isQuotaFit = IsQuotaFit)
    (hfetch : env.byID (env.toString (Data.get data "projectId")) = .ok project)
    (hcap : project.resourceQuota = some projectQuota)
    (hres : Resolves env data project nsQuota)
    (hcapConv : (limitToLimit env projectQuota.limit).2 = none)
    (hcandConv : (limitToLimit env nsQuota.limit).2 = none)
    (hlist : env.list = .ok namespaces)
    (hsibConv : ∀ n ∈ namespaces, counts (Data.get data "projectId") n = true →
      (limitToLimitCluster env (n.resourceQuota.bind (fun q => q.limit))).2 = none) :
    (Store.validateResourceQuota env data id).err = none ↔
      ∀ key ∈ LimitSet.keys (limitToLimit env projectQuota.limit).1,
        (((namespaces.filter (counts (Data.get data "projectId"))).map
            (fun n =>
              (limitToLimitCluster env (n.resourceQuota.bind (fun q => q.limit))).1)).map
          (fun l => LimitSet.get l key)).sum +
            LimitSet.get (limitToLimit env nsQuota.limit).1 key ≤
          LimitSet.get (limitToLimit env projectQuota.limit).1 key := by
  rw [validate_reaches_check env data id project projectQuota nsQuota namespaces
    hfetch hcap hres hcapConv hcandConv hlist hsibConv, hchecker]
  exact (IsQuotaFit_spec _ _ _).1

/-- With the string project id `p1`: cap `cpu: 4`, siblings `cpu: 1` and
`cpu: 1`; the candidate `cpu: 2` is accepted and the candidate `cpu: 5/2` is
refused. -/
theorem sample_candidates_accepted_and_refused :
    (Store.validateResourceQuota sampleEnv (request (.str "p1") 2) "").err = none ∧
    (Store.validateResourceQuota sampleEnv (request (.str "p1") (5 / 2)) "").err ≠ none :=
  ⟨(validate_accepted_iff_counted_within_cap sampleEnv (request (.str "p1") 2) "" sampleProject
      ⟨some [("cpu", 4)]⟩ ⟨some [("cpu", 2)]⟩ sampleNamespaces rfl rfl rfl
      (Or.inr ⟨rfl, rfl⟩) rfl rfl rfl (fun _ _ _ => rfl)).2 (by
        intro key hkey
        simp only [limitToLimit, sampleEnv, envWith, Option.getD_some, LimitSet.keys,
          List.map_cons, List.map_nil, List.mem_singleton] at hkey
        subst hkey
        simp [sampleNamespaces, counts, Value.eqString, Data.get, Data.lookup, request,
          limitToLimit, limitToLimitCluster, sampleEnv, envWith, LimitSet.get]
        norm_num),
    fun h => absurd
      ((validate_accepted_iff_counted_within_cap sampleEnv (request (.str "p1") (5 / 2)) ""
        sampleProject
        ⟨some [("cpu", 4)]⟩ ⟨some [("cpu", 5 / 2)]⟩ sampleNamespaces rfl rfl rfl
        (Or.inr ⟨rfl, rfl⟩) rfl rfl rfl (fun _ _ _ => rfl)).1 h "cpu"
        (List.Mem.head _)) (by
        simp [sampleNamespaces, counts, Value.eqString, Data.get, Data.lookup, request,
          limitToLimit, limitToLimitCluster, sampleEnv, envWith, LimitSet.get]
        norm_num)⟩

/-! ## Properties of the store -/

/-- C3: when the project fetch succeeds and the fetched project declares no
resource quota, `validateResourceQuota` returns no error for every request data
(whatever `resourceQuota` holds) and every namespace listing; the project fetch
is its only call, so namespaces are not listed and the checker is not invoked. -/
theorem validate_succeeds_without_cap (env : Env) (data : Data) (id : String)
    (project : Project)
    (hfetch : env.byID (env.toString (Data.get data "projectId")) = .ok project)
    (hcap : project.resourceQuota = none) :
    (Store.validateResourceQuota env data id).err = none ∧
    (Store.validateResourceQuota env data id).calls =
      [Call.byID (env.toString (Data.get data "projectId"))] ∧
    Call.list ∉ (Store.validateResourceQuota env data id).calls ∧
    ∀ c s k, Call.isQuotaFit c s k ∉ (Store.validateResourceQuota env data id).calls := by
  have h : Store.validateResourceQuota env data id =
      ⟨[Call.byID (env.toString (Data.get data "projectId"))], none⟩ := by
    unfold Store.validateResourceQuota
    simp only [hfetch, hcap]
  rw [h]
  simp

/-- Witness of C3: project `p0` has no cap; a request with a malformed quota is
accepted whether the listing works or fails. -/
theorem validate_succeeds_without_cap_witness :
    sampleByID "p0" = .ok freeProject ∧ freeProject.resourceQuota = none ∧
    (Store.validateResourceQuota (envWith (.error (Error.other "listing failed")))
      [("projectId", .str "p0"), ("resourceQuota", .str "garbage")] "ns1").err = none ∧
    (Store.validateResourceQuota sampleEnv
      [("projectId", .str "p0"), ("resourceQuota", .str "garbage")] "").calls =
        [Call.byID "p0"] :=
  ⟨rfl, rfl,
    (validate_succeeds_without_cap (envWith (.error (Error.other "listing failed")))
      [("projectId", .str "p0"), ("resourceQuota", .str "garbage")] "ns1" freeProject
      rfl rfl).1,
    (validate_succeeds_without_cap sampleEnv
      [("projectId", .str "p0"), ("resourceQuota", .str "garbage")] "" freeProject
      rfl rfl).2.1⟩

/-- C6: if the project fetch fails with error `e`, `validateResourceQuota`
returns `e`, the namespaces are not listed and the checker is not invoked; if
the namespace listing is made and fails with error `e`, `validateResourceQuota`
returns `e` and the checker is not invoked. -/
theorem validate_propagates_lookup_failure (env : Env) (data : Data) (id : String)
    (e : Error) :
    (env.byID (env.toString (Data.get data "projectId")) = .error e →
      (Store.validateResourceQuota env data id).err = some e ∧
      Call.list ∉ (Store.validateResourceQuota env data id).calls ∧
      ∀ c s k, Call.isQuotaFit c s k ∉ (Store.validateResourceQuota env data id).calls) ∧
    (env.list = .error e → Call.list ∈ (Store.validateResourceQuota env data id).calls →
      (Store.validateResourceQuota env data id).err = some e ∧
      ∀ c s k, Call.isQuotaFit c s k ∉ (Store.validateResourceQuota env data id).calls) := by
  constructor
  · intro hfetch
    have h : Store.validateResourceQuota env data id =
        ⟨[Call.byID (env.toString (Data.get data "projectId"))], some e⟩ := by
      unfold Store.validateResourceQuota
      simp only [hfetch]
    rw [h]
    simp
  · intro hlist hmem
    rcases validate_cases env data id with
      ⟨e1, _, h⟩ | ⟨p, _, _, h⟩ | ⟨p, pq, _, _, _, _, h⟩ | ⟨p, pq, e1, _, _, _, _, h⟩ |
      ⟨p, pq, nsq, h1, h2, h3, h⟩
    · rw [h] at hmem; simp at hmem
    · rw [h] at hmem; simp at hmem
    · rw [h] at hmem; simp at hmem
    · rw [h] at hmem; simp at hmem
    · rcases checkQuota_cases env data [Call.byID (env.toString (Data.get data "projectId"))]
          pq nsq with ⟨e1, hc, _⟩ | ⟨e1, hc, he | ⟨nss, hl, _⟩⟩ | ⟨nss, hl, _⟩
      · rw [h, hc] at hmem; simp at hmem
      · rw [hlist] at he
        cases he
        rw [h, hc]
        simp
      · rw [hlist] at hl; exact absurd hl (by simp)
      · rw [hlist] at hl; exact absurd hl (by simp)

/-- Witness of C6: an unknown project, and a listing that fails. -/
theorem validate_propagates_lookup_failure_witness :
    (Store.validateResourceQuota sampleEnv (request (.str "nowhere") 2) "").err =
      some (Error.other "project not found") ∧
    Call.list ∉ (Store.validateResourceQuota sampleEnv (request (.str "nowhere") 2) "").calls ∧
    Call.list ∈ (Store.validateResourceQuota (envWith (.error (Error.other "listing failed")))
      (request (.str "p1") 2) "").calls ∧
    (Store.validateResourceQuota (envWith (.error (Error.other "listing failed")))
      (request (.str "p1") 2) "").err = some (Error.other "listing failed") :=
  ⟨((validate_propagates_lookup_failure sampleEnv (request (.str "nowhere") 2) ""
      (Error.other "project not found")).1 rfl).1,
    ((validate_propagates_lookup_failure sampleEnv (request (.str "nowhere") 2) ""
      (Error.other "project not found")).1 rfl).2.1,
    List.Mem.tail _ (List.Mem.head _),
    ((validate_propagates_lookup_failure (envWith (.error (Error.other "listing failed")))
      (request (.str "p1") 2) "" (Error.other "listing failed")).2 rfl
      (List.Mem.tail _ (List.Mem.head _))).1⟩

/-- C5: when the checker is called and reports no-fit with detail `msg` and no
error, `validateResourceQuota` fails with the API error of code
`MaxLimitExceeded` on field `resourceQuota` whose message is
`Resource quota exceeds the project: ` followed by `msg`; when the checker
reports fit and no error, `validateResourceQuota` returns no error. -/
theorem validate_follows_checker (env : Env) (data : Data) (id : String)
    (c : ResourceQuotaLimit) (s : List ResourceQuotaLimit) (k : ResourceQuotaLimit)
    (hcall : Call.isQuotaFit c s k ∈ (Store.validateResourceQuota env data id).calls) :
    (∀ msg, env.isQuotaFit c s k = (false, msg, none) →
      (Store.validateResourceQuota env data id).err =
        some (Error.api MaxLimitExceeded ("Resource quota exceeds the project: " ++ msg)
          "resourceQuota")) ∧
    (∀ msg, env.isQuotaFit c s k = (true, msg, none) →
      (Store.validateResourceQuota env data id).err = none) := by
  obtain ⟨_, _, _, _, _, _, _, _, _, _, _, h⟩ := validate_of_fit_call env data id c s k hcall
  constructor
  · intro msg hr
    rw [h, hr]
    rfl
  · intro msg hr
    rw [h, hr]
    rfl

/-- Witness of C5: with a checker that answers no-fit with detail `cpu over`
the request is refused on field `resourceQuota`; with a checker that answers
fit it is accepted. -/
theorem validate_follows_checker_witness :
    (Store.validateResourceQuota (envAnswering (false, "cpu over", none))
      (request (.str "p1") 2) "").err =
      some (Error.api MaxLimitExceeded "Resource quota exceeds the project: cpu over"
        "resourceQuota") ∧
    (Store.validateResourceQuota (envAnswering (true, "", none))
      (request (.str "p1") 2) "").err = none :=
  ⟨(validate_follows_checker (envAnswering (false, "cpu over", none))
      (request (.str "p1") 2) "" [("cpu", 2)] [[("cpu", 1)], [("cpu", 1)]] [("cpu", 4)]
      (List.Mem.tail _ (List.Mem.tail _ (List.Mem.head _)))).1 "cpu over" rfl,
    (validate_follows_checker (envAnswering (true, "", none))
      (request (.str "p1") 2) "" [("cpu", 2)] [[("cpu", 1)], [("cpu", 1)]] [("cpu", 4)]
      (List.Mem.tail _ (List.Mem.tail _ (List.Mem.head _)))).2 "" rfl⟩

/-- C7: `Create` and `Update` gate the write on the validation. If the
validation of the request data (for `Create`, the data with the status
annotation that `Create` has just written into it) returns an error `e`, the
operation returns `(nil, e)` and calls neither `Create` nor `Update` of the
wrapped store; if the validation returns no error, the operation returns what
the wrapped store's `Create` (for `Update`: `Update` with the same id) returns
on that data, and that call is its last. -/
theorem write_gated_on_validation (env : Env) (data : Data) (id : String) :
    (∀ e, (Store.validateResourceQuota env (Store.annotate env data) "").err = some e →
      (Store.Create env data).result = (none, some e) ∧
      (∀ d, Call.storeCreate d ∉ (Store.Create env data).calls) ∧
      (∀ d i, Call.storeUpdate d i ∉ (Store.Create env data).calls)) ∧
    ((Store.validateResourceQuota env (Store.annotate env data) "").err = none →
      (Store.Create env data).result = env.storeCreate (Store.annotate env data) ∧
      (Store.Create env data).calls =
        (Store.validateResourceQuota env (Store.annotate env data) "").calls ++
          [Call.storeCreate (Store.annotate env data)]) ∧
    (∀ e, (Store.validateResourceQuota env data id).err = some e →
      (Store.Update env data id).result = (none, some e) ∧
      (∀ d, Call.storeCreate d ∉ (Store.Update env data id).calls) ∧
      (∀ d i, Call.storeUpdate d i ∉ (Store.Update env data id).calls)) ∧
    ((Store.validateResourceQuota env data id).err = none →
      (Store.Update env data id).result = env.storeUpdate data id ∧
      (Store.Update env data id).calls =
        (Store.validateResourceQuota env data id).calls ++ [Call.storeUpdate data id]) := by
  refine ⟨?_, ?_, ?_, ?_⟩
  · intro e he
    have hc : Store.Create env data =
        ⟨(Store.validateResourceQuota env (Store.annotate env data) "").calls,
          (none, some e)⟩ := by
      unfold Store.Create
      simp only [he]
    rw [hc]
    exact ⟨rfl, (validate_no_store_call env _ "").1, (validate_no_store_call env _ "").2⟩
  · intro he
    have hc : Store.Create env data =
        ⟨(Store.validateResourceQuota env (Store.annotate env data) "").calls ++
            [Call.storeCreate (Store.annotate env data)],
          env.storeCreate (Store.annotate env data)⟩ := by
      unfold Store.Create
      simp only [he]
    rw [hc]
    exact ⟨rfl, rfl⟩
  · intro e he
    have hc : Store.Update env data id =
        ⟨(Store.validateResourceQuota env data id).calls, (none, some e)⟩ := by
      unfold Store.Update
      simp only [he]
    rw [hc]
    exact ⟨rfl, (validate_no_store_call env _ id).1, (validate_no_store_call env _ id).2⟩
  · intro he
    have hc : Store.Update env data id =
        ⟨(Store.validateResourceQuota env data id).calls ++ [Call.storeUpdate data id],
          env.storeUpdate data id⟩ := by
      unfold Store.Update
      simp only [he]
    rw [hc]
    exact ⟨rfl, rfl⟩

/-- Witness of C7: with a refusing checker `Create` and `Update` return the
refusal and nothing else; with an accepting checker they return what the
wrapped store returns. -/
theorem write_gated_on_validation_witness :
    (Store.Create (envAnswering (false, "cpu over", none)) (request (.str "p1") 2)).result =
      (none, some (Error.api MaxLimitExceeded "Resource quota exceeds the project: cpu over"
        "resourceQuota")) ∧
    (Store.Create (envAnswering (true, "", none)) (request (.str "p1") 2)).result =
      (some (request (.str "p1") 2), none) ∧
    (Store.Update (envAnswering (false, "cpu over", none)) (request (.str "p1") 2) "ns1").result =
      (none, some (Error.api MaxLimitExceeded "Resource quota exceeds the project: cpu over"
        "resourceQuota")) ∧
    (Store.Update (envAnswering (true, "", none)) (request (.str "p1") 2) "ns1").result =
      (some (request (.str "p1") 2), none) :=
  ⟨((write_gated_on_validation (envAnswering (false, "cpu over", none))
      (request (.str "p1") 2) "ns1").1 _ rfl).1,
    ((write_gated_on_validation (envAnswering (true, "", none))
      (request (.str "p1") 2) "ns1").2.1 rfl).1,
    ((write_gated_on_validation (envAnswering (false, "cpu over", none))
      (request (.str "p1") 2) "ns1").2.2.1 _ rfl).1,
    ((write_gated_on_validation (envAnswering (true, "", none))
      (request (.str "p1") 2) "ns1").2.2.2 rfl).1⟩

/-- C10: the read transformer installed by `New` returns `(nil, nil)` exactly
when `data["annotations"]` is a map whose entry
`management.cattle.io/system-namespace` is the string `true`; in every other
case it returns the input data and no error. -/
theorem transformer_hides_system_namespaces (data : Data) :
    ((∃ m, Data.get data "annotations" = Value.map m ∧
        Data.get m "management.cattle.io/system-namespace" = Value.str "true") ∧
      New.Transformer data = (none, none)) ∨
    ((¬ ∃ m, Data.get data "annotations" = Value.map m ∧
        Data.get m "management.cattle.io/system-namespace" = Value.str "true") ∧
      New.Transformer data = (some data, none)) := by
  have heq : ∀ v : Value, Value.eqString v "true" = true ↔ v = Value.str "true" := by
    intro v
    cases v <;> simp [Value.eqString]
  have hnil : Data.get ([] : Data) "management.cattle.io/system-namespace" ≠
      Value.str "true" := by
    simp [Data.get, Data.lookup]
  unfold New.Transformer
  cases ha : Data.get data "annotations" with
  | map m =>
    simp only []
    by_cases hm : Data.get m "management.cattle.io/system-namespace" = Value.str "true"
    · left
      exact ⟨⟨m, rfl, hm⟩, by simp [(heq _).2 hm]⟩
    · right
      have hb : Value.eqString (Data.get m "management.cattle.io/system-namespace") "true"
          = false := by
        cases hv : Value.eqString (Data.get m "management.cattle.io/system-namespace") "true"
        · rfl
        · exact absurd ((heq _).1 hv) hm
      refine ⟨?_, by simp [hb]⟩
      rintro ⟨m2, h1, h2⟩
      cases h1
      exact hm h2
  | null =>
    right
    exact ⟨(fun ⟨_, h, _⟩ => by cases h), by simp [Data.get, Data.lookup, Value.eqString]⟩
  | bool b =>
    right
    exact ⟨(fun ⟨_, h, _⟩ => by cases h), by simp [Data.get, Data.lookup, Value.eqString]⟩
  | num q =>
    right
    exact ⟨(fun ⟨_, h, _⟩ => by cases h), by simp [Data.get, Data.lookup, Value.eqString]⟩
  | str s =>
    right
    exact ⟨(fun ⟨_, h, _⟩ => by cases h), by simp [Data.get, Data.lookup, Value.eqString]⟩
  | list xs =>
    right
    exact ⟨(fun ⟨_, h, _⟩ => by cases h), by simp [Data.get, Data.lookup, Value.eqString]⟩

/-- Witness of C10: a system namespace is hidden; a namespace whose annotation
is the boolean `true` is returned unchanged. -/
theorem transformer_hides_system_namespaces_witness :
    New.Transformer [("annotations",
      .map [("management.cattle.io/system-namespace", .str "true")])] = (none, none) ∧
    New.Transformer [("annotations",
      .map [("management.cattle.io/system-namespace", .bool true)])] =
        (some [("annotations",
          .map [("management.cattle.io/system-namespace", .bool true)])], none) :=
  ⟨(transformer_hides_system_namespaces [("annotations",
      .map [("management.cattle.io/system-namespace", .str "true")])]).elim
      (fun h => h.2) (fun h => absurd ⟨_, rfl, rfl⟩ h.1),
    (transformer_hides_system_namespaces [("annotations",
      .map [("management.cattle.io/system-namespace", .bool true)])]).elim
      (fun h => by
        obtain ⟨m, h1, h2⟩ := h.1
        simp only [Data.get, Data.lookup, if_true, Option.getD_some, Value.map.injEq] at h1
        subst h1
        simp [Data.get, Data.lookup] at h2)
      (fun h => h.2)⟩

/-- C8: for every create request (the id passed to the validation is empty)
that reaches the fit check, the sibling list passed to the checker holds
exactly one converted limit per listed namespace whose project id equals the
request's `projectId` and which declares a resource quota, in listing order;
a namespace counts exactly under these two conditions, so one of another
project and one without a quota add no entry. -/
theorem create_siblings_are_quota_namespaces (env : Env) (data : Data)
    (c : ResourceQuotaLimit) (s : List ResourceQuotaLimit) (k : ResourceQuotaLimit)
    (hcall : Call.isQuotaFit c s k ∈ (Store.validateResourceQuota env data "").calls) :
    ∃ namespaces, env.list = .ok namespaces ∧
      s = (namespaces.filter (counts (Data.get data "projectId"))).map
        (fun n => (limitToLimitCluster env (n.resourceQuota.bind (fun q => q.limit))).1) ∧
      s.length = (namespaces.filter (counts (Data.get data "projectId"))).length ∧
      ∀ n : Namespace, counts (Data.get data "projectId") n = true ↔
        (Data.get data "projectId" = Value.str n.projectID ∧ n.resourceQuota ≠ none) := by
  obtain ⟨_, _, _, nss, _, _, _, hl, _, hs, _, _⟩ :=
    validate_of_fit_call env data "" c s k hcall
  refine ⟨nss, hl, hs, ?_, ?_⟩
  · rw [hs]
    simp [siblingLimits]
  · intro n
    unfold counts
    cases hq : n.resourceQuota <;> cases hp : Data.get data "projectId" <;>
      simp [Value.eqString, eq_comm]

/-- Witness of C8: of the four listed namespaces, `ns1` and `ns4` (project `p1`,
quota `cpu: 1`) make the sibling list; `ns2` of project `p2` and `ns3` without a
quota add nothing. -/
theorem create_siblings_are_quota_namespaces_witness :
    Call.isQuotaFit [("cpu", 2)] [[("cpu", 1)], [("cpu", 1)]] [("cpu", 4)] ∈
      (Store.validateResourceQuota sampleEnv (request (.str "p1") 2) "").calls ∧
    sampleEnv.list = .ok sampleNamespaces ∧
    [[("cpu", (1 : ℚ))], [("cpu", (1 : ℚ))]] =
      (sampleNamespaces.filter (counts (Data.get (request (.str "p1") 2) "projectId"))).map
        (fun n =>
          (limitToLimitCluster sampleEnv (n.resourceQuota.bind (fun q => q.limit))).1) ∧
    [[("cpu", (1 : ℚ))], [("cpu", (1 : ℚ))]].length =
      (sampleNamespaces.filter
        (counts (Data.get (request (.str "p1") 2) "projectId"))).length := by
  obtain ⟨namespaces, hl, hs, hn, _⟩ :=
    create_siblings_are_quota_namespaces sampleEnv (request (.str "p1") 2)
      [("cpu", 2)] [[("cpu", 1)], [("cpu", 1)]] [("cpu", 4)]
      (List.Mem.tail _ (List.Mem.tail _ (List.Mem.head _)))
  have hl2 : Except.ok sampleNamespaces = (Except.ok namespaces : Except Error _) := hl
  injection hl2 with hl3
  subst hl3
  exact ⟨List.Mem.tail _ (List.Mem.tail _ (List.Mem.head _)), rfl, hs, hn⟩

/-- C4: for every request in a project that has a cap, the candidate limit
passed to the checker is the converted limit of the request's own
`resourceQuota` when that is not nil; otherwise the converted limit of the
project's namespace-default quota when the project declares one; otherwise
`validateResourceQuota` returns no error after the project fetch alone, without
invoking the checker. -/
theorem candidate_is_request_or_default (env : Env) (data : Data) (id : String)
    (project : Project) (projectQuota : ProjectResourceQuota)
    (hfetch : env.byID (env.toString (Data.get data "projectId")) = .ok project)
    (hcap : project.resourceQuota = some projectQuota) :
    (Value.isNil (Data.get data "resourceQuota") = false →
      ∀ c s k, Call.isQuotaFit c s k ∈ (Store.validateResourceQuota env data id).calls →
        ∃ nsQuota, env.toObjQuota (Data.get data "resourceQuota") = .ok nsQuota ∧
          c = (limitToLimit env nsQuota.limit).1) ∧
    (Value.isNil (Data.get data "resourceQuota") = true →
      ∀ dflt, project.namespaceDefaultResourceQuota = some dflt →
        ∀ c s k, Call.isQuotaFit c s k ∈ (Store.validateResourceQuota env data id).calls →
          c = (limitToLimit env dflt.limit).1) ∧
    (Value.isNil (Data.get data "resourceQuota") = true →
      project.namespaceDefaultResourceQuota = none →
        (Store.validateResourceQuota env data id).err = none ∧
        (Store.validateResourceQuota env data id).calls =
          [Call.byID (env.toString (Data.get data "projectId"))]) := by
  refine ⟨?_, ?_, ?_⟩
  · intro hn c s k hcall
    obtain ⟨p, pq, nsq, _, h1, _, h3, _, hc, _⟩ := validate_of_fit_call env data id c s k hcall
    rcases h3 with ⟨hn2, _⟩ | ⟨_, hq⟩
    · rw [show quotaField = "resourceQuota" from rfl, hn] at hn2
      exact absurd hn2 (by simp)
    · exact ⟨nsq, hq, hc⟩
  · intro hn dflt hd c s k hcall
    obtain ⟨p, pq, nsq, _, h1, _, h3, _, hc, _⟩ := validate_of_fit_call env data id c s k hcall
    rw [hfetch] at h1
    cases h1
    rcases h3 with ⟨_, hd2⟩ | ⟨hn2, _⟩
    · rw [hd] at hd2
      cases hd2
      exact hc
    · rw [show quotaField = "resourceQuota" from rfl, hn] at hn2
      exact absurd hn2 (by simp)
  · intro hn hd
    have h : Store.validateResourceQuota env data id =
        ⟨[Call.byID (env.toString (Data.get data "projectId"))], none⟩ := by
      unfold Store.validateResourceQuota
      simp only [hfetch, hcap, show quotaField = "resourceQuota" from rfl, hn, if_true, hd]
    rw [h]
    exact ⟨rfl, rfl⟩

/-- Witness of C4: an explicit quota `cpu: 2` is the candidate; without a quota
the project default `memory: 512` is the candidate; without a quota in a
project without default the validation ends after the project fetch. -/
theorem candidate_is_request_or_default_witness :
    (Call.isQuotaFit [("cpu", 2)] [[("cpu", 1)], [("cpu", 1)]] [("cpu", 4)] ∈
        (Store.validateResourceQuota sampleEnv (request (.str "p1") 2) "").calls ∧
      sampleEnv.toObjQuota (Data.get (request (.str "p1") 2) "resourceQuota") =
        .ok ⟨some [("cpu", 2)]⟩ ∧
      [("cpu", (2 : ℚ))] = (limitToLimit sampleEnv (some [("cpu", 2)])).1) ∧
    (Call.isQuotaFit [("memory", 512)] [[("cpu", 1)], [("cpu", 1)]] [("cpu", 4)] ∈
        (Store.validateResourceQuota sampleEnv [("projectId", .str "p1")] "").calls ∧
      [("memory", (512 : ℚ))] = (limitToLimit sampleEnv (some [("memory", 512)])).1) ∧
    (Store.validateResourceQuota sampleEnv [("projectId", .str "p3")] "").err = none ∧
    (Store.validateResourceQuota sampleEnv [("projectId", .str "p3")] "").calls =
      [Call.byID "p3"] := by
  obtain ⟨nsQuota, hq, hc⟩ :=
    (candidate_is_request_or_default sampleEnv (request (.str "p1") 2) "" sampleProject
      ⟨some [("cpu", 4)]⟩ rfl rfl).1 rfl [("cpu", 2)] [[("cpu", 1)], [("cpu", 1)]]
      [("cpu", 4)] (List.Mem.tail _ (List.Mem.tail _ (List.Mem.head _)))
  have hq2 : Except.ok (⟨some [("cpu", 2)]⟩ : NamespaceResourceQuota) =
      (Except.ok nsQuota : Except Error _) := hq
  injection hq2 with hq3
  subst hq3
  exact ⟨⟨List.Mem.tail _ (List.Mem.tail _ (List.Mem.head _)), rfl, hc⟩,
    ⟨List.Mem.tail _ (List.Mem.tail _ (List.Mem.head _)),
      (candidate_is_request_or_default sampleEnv [("projectId", .str "p1")] "" sampleProject
        ⟨some [("cpu", 4)]⟩ rfl rfl).2.1 rfl ⟨some [("memory", 512)]⟩ rfl _ _ _
        (List.Mem.tail _ (List.Mem.tail _ (List.Mem.head _)))⟩,
    (candidate_is_request_or_default sampleEnv [("projectId", .str "p3")] "" bareProject
      ⟨some [("cpu", 4)]⟩ rfl rfl).2.2 rfl rfl⟩

/-- C2 fails on the code, by the defect that also breaks C9: the loop of
`validateResourceQuota` compares `n.ProjectID` with the raw `data["projectId"]`
while the project is fetched under `convert.ToString(data["projectId"])`. For
the create request with `projectId` the number 5 and quota `cpu: 2`, the fetch
and the listing succeed, the fetched project `5` declares the cap `cpu: 4` and
the candidate resolves to `cpu: 2`; the listed namespace `ns5` belongs to
project `5` with quota `cpu: 3`. The validation returns no error and `Create`
hands the data to the wrapped store, although the sum over the listed
namespaces of the fetched project plus the candidate, 3 + 2, exceeds the cap. -/
theorem create_accepted_beyond_cap :
    (envWith (.ok strayNamespaces)).byID
        ((envWith (.ok strayNamespaces)).toString
          (Data.get (request (.num 5) 2) "projectId")) = .ok sampleProject ∧
    sampleProject.resourceQuota = some ⟨some [("cpu", 4)]⟩ ∧
    Resolves (envWith (.ok strayNamespaces)) (request (.num 5) 2) sampleProject
      ⟨some [("cpu", 2)]⟩ ∧
    (envWith (.ok strayNamespaces)).list = .ok strayNamespaces ∧
    (Store.validateResourceQuota (envWith (.ok strayNamespaces))
      (request (.num 5) 2) "").err = none ∧
    (Store.Create (envWith (.ok strayNamespaces)) (request (.num 5) 2)).result =
      (some (request (.num 5) 2), none) ∧
    ¬ ∀ key ∈ LimitSet.keys [("cpu", 4)],
        (((strayNamespaces.filter
              (belongsTo ((envWith (.ok strayNamespaces)).toString
                (Data.get (request (.num 5) 2) "projectId")))).map
            (fun n => (limitToLimitCluster (envWith (.ok strayNamespaces))
              (n.resourceQuota.bind (fun q => q.limit))).1)).map
          (fun l => LimitSet.get l key)).sum + LimitSet.get [("cpu", 2)] key ≤
        LimitSet.get [("cpu", 4)] key := by
  have hok : (Store.validateResourceQuota (envWith (.ok strayNamespaces))
      (request (.num 5) 2) "").err = none := by
    apply (validate_accepted_iff_counted_within_cap (envWith (.ok strayNamespaces))
      (request (.num 5) 2) "" sampleProject ⟨some [("cpu", 4)]⟩ ⟨some [("cpu", 2)]⟩
      strayNamespaces rfl rfl rfl (Or.inr ⟨rfl, rfl⟩) rfl rfl rfl (fun _ _ _ => rfl)).2
    intro key hkey
    simp only [limitToLimit, envWith, Option.getD_some, LimitSet.keys,
      List.map_cons, List.map_nil, List.mem_singleton] at hkey
    subst hkey
    simp [strayNamespaces, counts, Value.eqString, Data.get, Data.lookup, request,
      limitToLimit, envWith, LimitSet.get]
    norm_num
  have hcreate : Store.Create (envWith (.ok strayNamespaces)) (request (.num 5) 2) =
      ⟨(Store.validateResourceQuota (envWith (.ok strayNamespaces))
          (request (.num 5) 2) "").calls ++ [Call.storeCreate (request (.num 5) 2)],
        (some (request (.num 5) 2), none)⟩ := by
    have hann : Store.annotate (envWith (.ok strayNamespaces)) (request (.num 5) 2) =
        request (.num 5) 2 := rfl
    unfold Store.Create
    simp only [hann, hok]
    rfl
  have hid : (envWith (.ok strayNamespaces)).toString
      (Data.get (request (.num 5) 2) "projectId") = "5" := rfl
  refine ⟨rfl, rfl, Or.inr ⟨rfl, rfl⟩, rfl, hok, by rw [hcreate], ?_⟩
  intro h
  have h5 := h "cpu" (List.Mem.head _)
  rw [hid] at h5
  simp [strayNamespaces, belongsTo, limitToLimitCluster, envWith, LimitSet.get] at h5
  norm_num at h5

/-- C1 fails on the code: the parameter `id` of `validateResourceQuota` is not
read. Namespace `ns1` of project `p1` (cap `cpu: 4`) holds quota `cpu: 3` and is
the only listed namespace; the update of `ns1` with the same quota `cpu: 3`
passes the sibling list `[cpu: 3]`, the prior quota of `ns1` itself, to the
checker, and is refused (3 + 3 exceeds 4). -/
theorem update_counts_own_prior_quota :
    (Store.Update (envWith (.ok ownNamespaces)) (request (.str "p1") 3) "ns1").calls =
      [Call.byID "p1", Call.list,
        Call.isQuotaFit [("cpu", 3)] [[("cpu", 3)]] [("cpu", 4)]] ∧
    (Store.Update (envWith (.ok ownNamespaces)) (request (.str "p1") 3) "ns1").result =
      (none, some (Error.api MaxLimitExceeded
        ("Resource quota exceeds the project: " ++
          detail [("cpu", 3)] [[("cpu", 3)]] [("cpu", 4)])
        "resourceQuota")) := by
  have hv : Store.validateResourceQuota (envWith (.ok ownNamespaces))
      (request (.str "p1") 3) "ns1" =
      ⟨[Call.byID "p1", Call.list,
          Call.isQuotaFit [("cpu", 3)] [[("cpu", 3)]] [("cpu", 4)]],
        verdict (IsQuotaFit [("cpu", 3)] [[("cpu", 3)]] [("cpu", 4)])⟩ :=
    validate_reaches_check (envWith (.ok ownNamespaces)) (request (.str "p1") 3) "ns1"
      sampleProject ⟨some [("cpu", 4)]⟩ ⟨some [("cpu", 3)]⟩ ownNamespaces rfl rfl
      (Or.inr ⟨rfl, rfl⟩) rfl rfl rfl (fun _ _ _ => rfl)
  have hr : verdict (IsQuotaFit [("cpu", 3)] [[("cpu", 3)]] [("cpu", 4)]) =
      some (Error.api MaxLimitExceeded
        ("Resource quota exceeds the project: " ++
          detail [("cpu", 3)] [[("cpu", 3)]] [("cpu", 4)])
        "resourceQuota") := by
    rcases (IsQuotaFit_spec [("cpu", 3)] [[("cpu", 3)]] [("cpu", 4)]).2 with h | h
    · have := (IsQuotaFit_spec [("cpu", 3)] [[("cpu", 3)]] [("cpu", 4)]).1.1 h "cpu"
        (List.Mem.head _)
      simp [LimitSet.get] at this
      norm_num at this
    · exact h
  have hu : Store.Update (envWith (.ok ownNamespaces)) (request (.str "p1") 3) "ns1" =
      ⟨[Call.byID "p1", Call.list,
          Call.isQuotaFit [("cpu", 3)] [[("cpu", 3)]] [("cpu", 4)]],
        (none, some (Error.api MaxLimitExceeded
          ("Resource quota exceeds the project: " ++
            detail [("cpu", 3)] [[("cpu", 3)]] [("cpu", 4)])
          "resourceQuota"))⟩ := by
    unfold Store.Update
    simp only [hv, hr]
  rw [hu]
  exact ⟨rfl, rfl⟩

/-- C9 fails on the code: the project is fetched under
`convert.ToString(data["projectId"])` but the listed namespaces are compared
with `data["projectId"]` itself. With `projectId` the number 5, project `5` (cap
`cpu: 4`) is fetched; the listed namespace `ns5` has project id `5` and quota
`cpu: 3`, yet the sibling list passed to the checker is empty and the request
`cpu: 2` is accepted. -/
theorem siblings_missed_for_non_string_project_id :
    (envWith (.ok strayNamespaces)).toString (Data.get (request (.num 5) 2) "projectId") =
      "5" ∧
    strayNamespaces = [⟨"ns5", "5", some ⟨some [("cpu", 3)]⟩⟩] ∧
    (Store.validateResourceQuota (envWith (.ok strayNamespaces))
      (request (.num 5) 2) "").calls =
      [Call.byID "5", Call.list, Call.isQuotaFit [("cpu", 2)] [] [("cpu", 4)]] ∧
    (Store.validateResourceQuota (envWith (.ok strayNamespaces))
      (request (.num 5) 2) "").err = none := by
  have hv : Store.validateResourceQuota (envWith (.ok strayNamespaces))
      (request (.num 5) 2) "" =
      ⟨[Call.byID "5", Call.list, Call.isQuotaFit [("cpu", 2)] [] [("cpu", 4)]],
        verdict (IsQuotaFit [("cpu", 2)] [] [("cpu", 4)])⟩ :=
    validate_reaches_check (envWith (.ok strayNamespaces)) (request (.num 5) 2) ""
      sampleProject ⟨some [("cpu", 4)]⟩ ⟨some [("cpu", 2)]⟩ strayNamespaces rfl rfl
      (Or.inr ⟨rfl, rfl⟩) rfl rfl rfl (fun _ _ _ => rfl)
  have hr : verdict (IsQuotaFit [("cpu", 2)] [] [("cpu", 4)]) = none := by
    apply (IsQuotaFit_spec [("cpu", 2)] [] [("cpu", 4)]).1.2
    intro key hkey
    simp only [LimitSet.keys, List.map_cons, List.map_nil, List.mem_singleton] at hkey
    subst hkey
    simp [LimitSet.get]
    norm_num
  refine ⟨rfl, rfl, ?_, ?_⟩
  · rw [hv]
  · rw [hv, hr]

end NamespaceStore
